import Mathlib

/-!
Shallow embedding of `combinato/artifacts/mask_artifacts.py`.

Spike timestamps (milliseconds) and waveform samples (µV) are modelled as
rationals; the artifact code array holds integers.  Fallible numpy/pytables
operations (indexing an empty array, a missing storage node, a failed
`assert`) are modelled with `Option`/`Except`/an explicit outcome type.
An out-of-range waveform sample read is modelled as 0 via `List.getD`
(the theorems below never exercise that case).
-/

namespace MaskArtifacts

/-- `options_by_diff` in the source: code 1, 500 ms bins, max 100 spikes/bin. -/
def diff_art_id : ℕ := 1
def diff_binlength : ℚ := 500
def diff_max_spk_per_bin : ℕ := 100

/-- `options_by_height`: code 2, max height 1000 µV. -/
def height_art_id : ℕ := 2
def height_max_height : ℚ := 1000

/-- `options_by_bincount`: code 4. -/
def bincount_art_id : ℕ := 4

/-- `options_double`: code 8, relevant waveform index 18, min distance 1.5 ms. -/
def double_art_id : ℕ := 8
def double_relevant_idx : ℕ := 18
def double_min_dist : ℚ := 3/2

/-- `mycmp` inside `mark_double_detection`: returns a comparison for the two
recognized signs and Python `None` (here `Option.none`) otherwise. -/
def mycmp (a b : ℚ) (sign : String) : Option Bool :=
  if sign = "pos" then some (decide (a > b))
  else if sign = "neg" then some (decide (a < b))
  else none

/-- `spikes[i, rel_idx]`: the designated waveform feature of spike `i`. -/
def relVal (spikes : List (List ℚ)) (i : ℕ) : ℚ :=
  (spikes.getD i []).getD double_relevant_idx 0

/-- The index killed for the close pair `(i, i+1)`: `i+1` when `mycmp` is
truthy (Python `if mycmp(sp1, sp2, sign)`), `i` otherwise (including the
`None` fallthrough). -/
def killIndex (spikes : List (List ℚ)) (sign : String) (i : ℕ) : ℕ :=
  match mycmp (relVal spikes i) (relVal spikes (i + 1)) sign with
  | some true => i + 1
  | _ => i

/-- `diff = np.diff(times); double_idx = diff < min_dist`: the indices `i`
with `times[i+1] - times[i] < min_dist`. -/
def closePairs (times : List ℚ) : List ℕ :=
  (List.range (times.length - 1)).filter
    (fun i => decide (times.getD (i + 1) 0 - times.getD i 0 < double_min_dist))

/-- The kill indices accumulated by the loop in `mark_double_detection`. -/
def doubleKills (times : List ℚ) (spikes : List (List ℚ)) (sign : String) :
    List ℕ :=
  (closePairs times).map (killIndex spikes sign)

/-- `mark_double_detection(times, spikes, sign)`: boolean mask plus code 8. -/
def mark_double_detection (times : List ℚ) (spikes : List (List ℚ))
    (sign : String) : List Bool × ℕ :=
  ((List.range times.length).map
      (fun j => (doubleKills times spikes sign).contains j),
    double_art_id)

/-- `np.arange(start, stop, step)` for positive `step`: the values
`start + k*step` for `0 ≤ k < ⌈(stop - start)/step⌉`. -/
def arange (start stop step : ℚ) : List ℚ :=
  (List.range (⌈(stop - start) / step⌉ : ℤ).toNat).map
    (fun k => start + (k : ℚ) * step)

/-- One histogram bin count of `np.histogram(times, bins)`: the half-open
interval `[lo, hi)`, closed on the right for the last bin. -/
def binCount (times : List ℚ) (lo hi : ℚ) (lastBin : Bool) : ℕ :=
  (times.filter (fun t =>
    decide (lo ≤ t) && (if lastBin then decide (t ≤ hi) else decide (t < hi)))).length

/-- `bins[:-1][counts > max_per_bin]`: left edges of overfull bins. -/
def tooManyEdges (times : List ℚ) (bins : List ℚ) : List ℚ :=
  (List.range (bins.length - 1)).filterMap (fun k =>
    if binCount times (bins.getD k 0) (bins.getD (k + 1) 0)
        (k + 2 = bins.length) > diff_max_spk_per_bin
    then some (bins.getD k 0) else none)

/-- Flagged left edges contributed by one anchoring `shift` in
`mark_by_diff` (empty when fewer than two bin edges exist). -/
def markByDiffEdges (times : List ℚ) (shift : ℚ) : List ℚ :=
  let bins := arange (times.headD 0 + shift) (times.getLastD 0 + shift)
    diff_binlength
  if bins.length < 2 then [] else tooManyEdges times bins

/-- `mark_by_diff(times)`: `none` models the `IndexError` that `times[0]`
raises on an empty array; otherwise the mask (a spike is flagged when it
lies in `[edge, edge + binlength]` of a flagged edge from either anchoring)
plus code 1. -/
def mark_by_diff (times : List ℚ) : Option (List Bool × ℕ) :=
  match times with
  | [] => none
  | _ :: _ =>
    let edges := markByDiffEdges times 0 ++
      markByDiffEdges times (diff_binlength / 2)
    some (times.map (fun t => edges.any
        (fun e => decide (e ≤ t) && decide (t ≤ e + diff_binlength))),
      diff_art_id)

/-- `mark_by_bincount(times, left_edges, bin_len)`: mask plus code 4. -/
def mark_by_bincount (times : List ℚ) (left_edges : List ℚ) (bin_len : ℚ) :
    List Bool × ℕ :=
  (times.map (fun t => left_edges.any
      (fun e => decide (e ≤ t) && decide (t ≤ e + bin_len))),
    bincount_art_id)

/-- Maximum of a waveform row (`spikes.max(1)`); rows are nonempty in use. -/
def listMax : List ℚ → ℚ
  | [] => 0
  | h :: t => t.foldl max h

/-- Minimum of a waveform row (`spikes.min(1)`). -/
def listMin : List ℚ → ℚ
  | [] => 0
  | h :: t => t.foldl min h

/-- `mark_by_height(spikes, sign)`: mask plus code 2, or the `ValueError`
raised for an unknown sign. -/
def mark_by_height (spikes : List (List ℚ)) (sign : String) :
    Except String (List Bool × ℕ) :=
  if sign = "pos" then
    .ok (spikes.map (fun r => decide (listMax r ≥ height_max_height)),
      height_art_id)
  else if sign = "neg" then
    .ok (spikes.map (fun r => decide (listMin r ≤ -height_max_height)),
      height_art_id)
  else .error ("Unknown sign: " ++ sign)

/-- The per-polarity contents of a data file: the `/{sign}/times`,
`/{sign}/spikes` and `/{sign}/artifacts` nodes (`none` = node absent). -/
structure SignData where
  times : Option (List ℚ)
  spikes : Option (List (List ℚ))
  artifacts : Option (List ℤ)
  deriving DecidableEq, Repr

/-- One h5 data file: the records of the two polarities. -/
structure H5File where
  pos : SignData
  neg : SignData
  deriving DecidableEq, Repr

/-- Outcome of one iteration of the `for sign in SIGNS` loop in `main`:
`skipped` is a `continue` path (storage untouched, handle left open),
`processed` carries the updated polarity record (handle closed), `failed`
is an uncaught Python exception (handle left open, loop aborted). -/
inductive SignOutcome where
  | skipped : SignOutcome
  | processed : SignData → SignOutcome
  | failed : String → SignOutcome
  deriving DecidableEq, Repr

/-- `artifacts[mask != 0] = art_id`: numpy boolean-mask assignment; `none`
models the `IndexError` raised when the mask length does not match. -/
def applyMask (arts : List ℤ) (mask : List Bool) (code : ℕ) :
    Option (List ℤ) :=
  if arts.length = mask.length then
    some (List.zipWith (fun a f => if f then (code : ℤ) else a) arts mask)
  else none

/-- The concurrent-activity merge step in `main`: skipped (the array is
passed through) when no concurrent data is supplied. -/
def mergeConc (conc : Option (List ℚ × ℚ)) (times : List ℚ) (a3 : List ℤ) :
    Option (List ℤ) :=
  match conc with
  | none => some a3
  | some (edges, bl) =>
    applyMask a3 (mark_by_bincount times edges bl).1
      (mark_by_bincount times edges bl).2

/-- The detector/merge section of `main` for one polarity, lines 197–220 of
the source: each detector runs in the fixed order and its mask is merged by
assignment into the artifact array. -/
def detectAndMerge (conc : Option (List ℚ × ℚ)) (sign : String)
    (times : List ℚ) (spikes : List (List ℚ)) (arts1 : List ℤ) :
    Except String (List ℤ) :=
  match mark_by_diff times with
  | none => .error "IndexError"
  | some md =>
    match applyMask arts1 md.1 md.2 with
    | none => .error "IndexError"
    | some a2 =>
      match mark_by_height spikes sign with
      | .error m => .error m
      | .ok mh =>
        match applyMask a2 mh.1 mh.2 with
        | none => .error "IndexError"
        | some a3 =>
          match mergeConc conc times a3 with
          | none => .error "IndexError"
          | some a4 =>
            match applyMask a4 (mark_double_detection times spikes sign).1
                (mark_double_detection times spikes sign).2 with
            | none => .error "IndexError"
            | some a5 => .ok a5

/-- One iteration of the `for sign in SIGNS` loop in `main`: skip when the
times node is absent or empty, fail on a missing spikes node or on the
`assert num_spk == spikes.shape[0]`, otherwise fetch-or-create the artifact
array, reset it to zero (`RESET = True`), run the detectors and store the
merged result. -/
def processSign (conc : Option (List ℚ × ℚ)) (sign : String)
    (sd : SignData) : SignOutcome :=
  match sd.times with
  | none => .skipped
  | some times =>
    if times.length = 0 then .skipped
    else
      match sd.spikes with
      | none => .failed "NoSuchNodeError"
      | some spikes =>
        if times.length = spikes.length then
          match detectAndMerge conc sign times spikes
              ((sd.artifacts.getD (List.replicate times.length (0 : ℤ))).map
                (fun _ => (0 : ℤ))) with
          | .error m => .failed m
          | .ok a5 => .processed { sd with artifacts := some a5 }
        else .failed "AssertionError"

/-- `main(fname, ...)`: process `pos` then `neg`; an uncaught exception in
either iteration aborts the whole call. -/
def mainRun (conc : Option (List ℚ × ℚ)) (f : H5File) :
    Except String H5File :=
  match processSign conc "pos" f.pos with
  | .failed m => .error m
  | .skipped =>
    match processSign conc "neg" f.neg with
    | .failed m => .error m
    | .skipped => .ok f
    | .processed nd => .ok { f with neg := nd }
  | .processed pd =>
    match processSign conc "neg" f.neg with
    | .failed m => .error m
    | .skipped => .ok { f with pos := pd }
    | .processed nd => .ok { f with pos := pd, neg := nd }

/-- The batch loop at the end of `parse_args`: `main` is called on each
file with no surrounding `try`, so an exception aborts the batch. -/
def runBatch (conc : Option (List ℚ × ℚ)) :
    List H5File → Except String (List H5File)
  | [] => .ok []
  | f :: rest =>
    match mainRun conc f with
    | .error m => .error m
    | .ok f' =>
      match runBatch conc rest with
      | .error m => .error m
      | .ok rest' => .ok (f' :: rest')

/-- Storage-handle events of `tables.open_file` / `h5fid.close()`. -/
inductive HEvent where
  | opened : HEvent
  | closed : HEvent
  deriving DecidableEq, Repr

/-- Handle events of one loop iteration: the handle is opened first and
closed only on the fully-processed path (the `continue` paths and uncaught
exceptions jump past `h5fid.close()`). -/
def signTrace : SignOutcome → List HEvent
  | .processed _ => [.opened, .closed]
  | _ => [.opened]

/-- Handle events of one `main` call: `neg` is only reached when `pos` did
not raise. -/
def mainTrace (conc : Option (List ℚ × ℚ)) (f : H5File) : List HEvent :=
  match processSign conc "pos" f.pos with
  | .failed _ => signTrace (SignOutcome.failed "")
  | o1 => signTrace o1 ++ signTrace (processSign conc "neg" f.neg)

/-- Number of occurrences of an event in a trace. -/
def countE (l : List HEvent) (e : HEvent) : ℕ :=
  (l.filter (fun x => x = e)).length

/-- The concurrent-activity mask actually merged in `main`: the bincount
detector's mask when concurrent data is supplied, an all-false mask (the
detector is skipped) otherwise. -/
def concMask (conc : Option (List ℚ × ℚ)) (times : List ℚ) : List Bool :=
  match conc with
  | none => List.replicate times.length false
  | some (edges, bl) => (mark_by_bincount times edges bl).1

/-! ### Helper lemmas -/

lemma getD_map_of_lt {α β : Type} (f : α → β) (l : List α) (d : β) (dl : α)
    (j : ℕ) (hj : j < l.length) : (l.map f).getD j d = f (l.getD j dl) := by
  rw [List.getD_eq_getElem _ _ (by simpa using hj),
    List.getD_eq_getElem _ _ hj]
  simp

lemma killIndex_self_or_succ (spikes : List (List ℚ)) (sign : String)
    (i : ℕ) : killIndex spikes sign i = i ∨ killIndex spikes sign i = i + 1 := by
  cases h : mycmp (relVal spikes i) (relVal spikes (i + 1)) sign with
  | none => simp [killIndex, h]
  | some b => cases b <;> simp [killIndex, h]

lemma mem_closePairs {times : List ℚ} {i : ℕ} :
    i ∈ closePairs times ↔
      i + 1 < times.length ∧
      times.getD (i + 1) 0 - times.getD i 0 < double_min_dist := by
  simp only [closePairs, List.mem_filter, List.mem_range, decide_eq_true_eq]
  constructor
  · rintro ⟨h1, h2⟩
    exact ⟨by omega, h2⟩
  · rintro ⟨h1, h2⟩
    exact ⟨by omega, h2⟩

lemma double_mask_getD {times : List ℚ} {spikes : List (List ℚ)}
    {sign : String} {j : ℕ} (hj : j < times.length) :
    (mark_double_detection times spikes sign).1.getD j false = true ↔
      ∃ i ∈ closePairs times, killIndex spikes sign i = j := by
  unfold mark_double_detection
  rw [List.getD_eq_getElem _ _ (by simpa using hj)]
  simp [doubleKills, List.elem_iff, eq_comm]

lemma double_mask_length (times : List ℚ) (spikes : List (List ℚ))
    (sign : String) :
    (mark_double_detection times spikes sign).1.length = times.length := by
  simp [mark_double_detection]

/-! ### Claim theorems: detectors -/

/-- C6: for every adjacent pair closer than `min_dist` whose designated
waveform feature values (sample index 18) are exactly equal, the earlier
spike (index `i`) is flagged by `mark_double_detection`, for both
polarities. -/
theorem double_tie_break_flags_earlier
    (times : List ℚ) (spikes : List (List ℚ)) (sign : String) (i : ℕ)
    (h1 : i + 1 < times.length)
    (h2 : times.getD (i + 1) 0 - times.getD i 0 < double_min_dist)
    (h3 : relVal spikes i = relVal spikes (i + 1))
    (h4 : sign = "pos" ∨ sign = "neg") :
    (mark_double_detection times spikes sign).1.getD i false = true := by
  rw [double_mask_getD (by omega)]
  refine ⟨i, mem_closePairs.mpr ⟨h1, h2⟩, ?_⟩
  rcases h4 with h | h <;> simp [killIndex, mycmp, h, h3]

/-- C6 witness: times `[0, 1]`, equal feature values, sign `pos`. -/
theorem double_tie_break_flags_earlier_witness :
    (0 + 1 < ([0, 1] : List ℚ).length ∧
      ([0, 1] : List ℚ).getD (0 + 1) 0 - ([0, 1] : List ℚ).getD 0 0 <
        double_min_dist ∧
      relVal [List.replicate 18 0 ++ [5], List.replicate 18 0 ++ [5]] 0 =
        relVal [List.replicate 18 0 ++ [5], List.replicate 18 0 ++ [5]] (0 + 1)) ∧
    (mark_double_detection [0, 1]
        [List.replicate 18 0 ++ [5], List.replicate 18 0 ++ [5]]
        "pos").1.getD 0 false = true :=
  ⟨⟨by decide, of_decide_eq_true (by with_unfolding_all rfl),
      by with_unfolding_all rfl⟩,
    double_tie_break_flags_earlier _ _ _ _ (by decide)
      (of_decide_eq_true (by with_unfolding_all rfl))
      (by with_unfolding_all rfl) (Or.inl rfl)⟩

/-- C9: for any sign other than `pos`/`neg`, `mark_double_detection` still
returns (no exception: `mycmp` yields `None`, treated as false), and for
every adjacent pair closer than `min_dist` the earlier spike is flagged;
the returned code is still 8. -/
theorem double_unknown_sign_flags_earlier
    (times : List ℚ) (spikes : List (List ℚ)) (sign : String) (i : ℕ)
    (h1 : i + 1 < times.length)
    (h2 : times.getD (i + 1) 0 - times.getD i 0 < double_min_dist)
    (h4 : sign ≠ "pos") (h5 : sign ≠ "neg") :
    (mark_double_detection times spikes sign).1.getD i false = true ∧
    (mark_double_detection times spikes sign).2 = double_art_id := by
  refine ⟨?_, rfl⟩
  rw [double_mask_getD (by omega)]
  exact ⟨i, mem_closePairs.mpr ⟨h1, h2⟩, by simp [killIndex, mycmp, h4, h5]⟩

/-- C9 witness: sign `xyz`. -/
theorem double_unknown_sign_flags_earlier_witness :
    (0 + 1 < ([0, 1] : List ℚ).length ∧
      ([0, 1] : List ℚ).getD (0 + 1) 0 - ([0, 1] : List ℚ).getD 0 0 <
        double_min_dist ∧
      "xyz" ≠ "pos" ∧ "xyz" ≠ "neg") ∧
    ((mark_double_detection [0, 1]
        [List.replicate 18 0 ++ [3], List.replicate 18 0 ++ [7]]
        "xyz").1.getD 0 false = true ∧
      (mark_double_detection [0, 1]
        [List.replicate 18 0 ++ [3], List.replicate 18 0 ++ [7]]
        "xyz").2 = double_art_id) :=
  ⟨⟨by decide, of_decide_eq_true (by with_unfolding_all rfl),
      by decide, by decide⟩,
    double_unknown_sign_flags_earlier _ _ _ _ (by decide)
      (of_decide_eq_true (by with_unfolding_all rfl))
      (by decide) (by decide)⟩

/-- C2 counterexample: times `[0, 1, 2]` (all pairs closer than 1.5 ms),
positive sign, strictly increasing feature values at index 18.  Pair
`(0, 1)` kills index 0, pair `(1, 2)` kills index 1, so BOTH spikes of the
adjacent close pair `(0, 1)` end up flagged — refuting "never both". -/
theorem double_pair_both_flagged_cex :
    (([0, 1, 2] : List ℚ).getD 1 0 - ([0, 1, 2] : List ℚ).getD 0 0 <
      double_min_dist) ∧
    (mark_double_detection [0, 1, 2]
        [List.replicate 18 0 ++ [0], List.replicate 18 0 ++ [5],
          List.replicate 18 0 ++ [10]] "pos").1.getD 0 false = true ∧
    (mark_double_detection [0, 1, 2]
        [List.replicate 18 0 ++ [0], List.replicate 18 0 ++ [5],
          List.replicate 18 0 ++ [10]] "pos").1.getD 1 false = true :=
  ⟨of_decide_eq_true (by with_unfolding_all rfl),
    by with_unfolding_all rfl, by with_unfolding_all rfl⟩

/-- C2 (amended): for every adjacent pair closer than `min_dist`, at least
one of the two spikes is flagged (never neither); and when no other close
pair touches the two indices (the pair ending at `i` and the pair starting
at `i+1` are not close), exactly one of the two is flagged.  When close
pairs overlap, both spikes of a pair can be flagged. -/
theorem double_close_pair_amended
    (times : List ℚ) (spikes : List (List ℚ)) (sign : String) (i : ℕ)
    (h1 : i + 1 < times.length)
    (h2 : times.getD (i + 1) 0 - times.getD i 0 < double_min_dist) :
    ((mark_double_detection times spikes sign).1.getD i false = true ∨
      (mark_double_detection times spikes sign).1.getD (i + 1) false = true) ∧
    ((∀ p ∈ closePairs times, p + 1 ≠ i) → i + 1 ∉ closePairs times →
      ((mark_double_detection times spikes sign).1.getD i false = true ↔
        ¬ (mark_double_detection times spikes sign).1.getD (i + 1) false
          = true)) := by
  have hmem : i ∈ closePairs times := mem_closePairs.mpr ⟨h1, h2⟩
  constructor
  · rcases killIndex_self_or_succ spikes sign i with hk | hk
    · exact Or.inl ((double_mask_getD (by omega)).mpr ⟨i, hmem, hk⟩)
    · exact Or.inr ((double_mask_getD h1).mpr ⟨i, hmem, hk⟩)
  · intro hL hR
    rcases killIndex_self_or_succ spikes sign i with hk | hk
    · have hi : (mark_double_detection times spikes sign).1.getD i false
          = true := (double_mask_getD (by omega)).mpr ⟨i, hmem, hk⟩
      have hi1 : ¬ (mark_double_detection times spikes sign).1.getD (i + 1)
          false = true := by
        rw [double_mask_getD h1]
        rintro ⟨p, hp, hkp⟩
        rcases killIndex_self_or_succ spikes sign p with hq | hq
        · have hpi : p = i + 1 := by omega
          exact hR (hpi ▸ hp)
        · have hpi : p = i := by omega
          rw [hpi] at hkp
          omega
      exact ⟨fun _ => hi1, fun _ => hi⟩
    · have hi1 : (mark_double_detection times spikes sign).1.getD (i + 1)
          false = true := (double_mask_getD h1).mpr ⟨i, hmem, hk⟩
      have hi : ¬ (mark_double_detection times spikes sign).1.getD i false
          = true := by
        rw [double_mask_getD (by omega)]
        rintro ⟨p, hp, hkp⟩
        rcases killIndex_self_or_succ spikes sign p with hq | hq
        · have hpi : p = i := by omega
          rw [hpi] at hkp
          omega
        · exact hL p hp (by omega)
      exact ⟨fun h => absurd h hi, fun h => absurd hi1 h⟩

/-- C2 (amended) witness: the isolated close pair `(0, 1)` in `[0, 1, 10]`
with equal feature values: spike 0 flagged, spike 1 not. -/
theorem double_close_pair_amended_witness :
    (0 + 1 < ([0, 1, 10] : List ℚ).length ∧
      ([0, 1, 10] : List ℚ).getD (0 + 1) 0 - ([0, 1, 10] : List ℚ).getD 0 0 <
        double_min_dist) ∧
    (((mark_double_detection [0, 1, 10]
          [List.replicate 18 0 ++ [4], List.replicate 18 0 ++ [4],
            List.replicate 18 0 ++ [4]] "pos").1.getD 0 false = true ∨
      (mark_double_detection [0, 1, 10]
          [List.replicate 18 0 ++ [4], List.replicate 18 0 ++ [4],
            List.replicate 18 0 ++ [4]] "pos").1.getD (0 + 1)
        false = true) ∧
      ((∀ p ∈ closePairs [0, 1, 10], p + 1 ≠ 0) →
        0 + 1 ∉ closePairs [0, 1, 10] →
        ((mark_double_detection [0, 1, 10]
            [List.replicate 18 0 ++ [4], List.replicate 18 0 ++ [4],
              List.replicate 18 0 ++ [4]] "pos").1.getD 0 false = true ↔
          ¬ (mark_double_detection [0, 1, 10]
            [List.replicate 18 0 ++ [4], List.replicate 18 0 ++ [4],
              List.replicate 18 0 ++ [4]] "pos").1.getD
            (0 + 1) false = true))) :=
  ⟨⟨by decide, of_decide_eq_true (by with_unfolding_all rfl)⟩,
    double_close_pair_amended _ _ _ _ (by decide)
      (of_decide_eq_true (by with_unfolding_all rfl))⟩

/-! ### Pipeline helper lemmas -/

lemma mark_by_diff_some {times : List ℚ} {md : List Bool × ℕ}
    (h : mark_by_diff times = some md) :
    md.1.length = times.length ∧ md.2 = diff_art_id := by
  cases times with
  | nil => simp [mark_by_diff] at h
  | cons a t =>
    simp only [mark_by_diff] at h
    injection h with h
    subst h
    simp

lemma mark_by_height_ok {spikes : List (List ℚ)} {sign : String}
    {mh : List Bool × ℕ} (h : mark_by_height spikes sign = .ok mh) :
    mh.1.length = spikes.length ∧ mh.2 = height_art_id := by
  unfold mark_by_height at h
  split at h
  · injection h with h
    subst h
    simp
  · split at h
    · injection h with h
      subst h
      simp
    · cases h

lemma applyMask_ok {arts : List ℤ} {mask : List Bool} {c : ℕ} {out : List ℤ}
    (h : applyMask arts mask c = some out) :
    arts.length = mask.length ∧ out.length = arts.length ∧
    ∀ j, j < arts.length →
      out.getD j 0 = if mask.getD j false then (c : ℤ) else arts.getD j 0 := by
  unfold applyMask at h
  split at h
  · rename_i hlen
    injection h with h
    subst h
    refine ⟨hlen, by simp [List.length_zipWith, hlen], ?_⟩
    intro j hj
    have hj2 : j < mask.length := hlen ▸ hj
    have hjz : j < (List.zipWith (fun a f => if f then (c : ℤ) else a)
        arts mask).length := by
      simp only [List.length_zipWith]
      omega
    rw [List.getD_eq_getElem _ _ hjz, List.getD_eq_getElem _ _ hj,
      List.getD_eq_getElem _ _ hj2]
    simp [List.getElem_zipWith]
  · cases h

lemma concMask_getD_none (times : List ℚ) (j : ℕ) :
    (concMask none times).getD j false = false := by
  unfold concMask
  rcases Nat.lt_or_ge j times.length with h | h
  · rw [List.getD_eq_getElem _ _ (by simpa using h)]
    simp
  · rw [List.getD_eq_default _ _ (by simpa using h)]

lemma mergeConc_ok {conc : Option (List ℚ × ℚ)} {times : List ℚ}
    {a3 a4 : List ℤ} (h : mergeConc conc times a3 = some a4) :
    a4.length = a3.length ∧
    ∀ j, j < a3.length →
      a4.getD j 0 = if (concMask conc times).getD j false
        then (bincount_art_id : ℤ) else a3.getD j 0 := by
  cases conc with
  | none =>
    simp only [mergeConc] at h
    injection h with h
    subst h
    refine ⟨rfl, fun j hj => ?_⟩
    rw [concMask_getD_none]
    simp
  | some p =>
    obtain ⟨edges, bl⟩ := p
    simp only [mergeConc] at h
    obtain ⟨h1, h2, h3⟩ := applyMask_ok h
    refine ⟨h2, fun j hj => ?_⟩
    rw [h3 j hj]
    rfl

lemma detectAndMerge_ok {conc : Option (List ℚ × ℚ)} {sign : String}
    {times : List ℚ} {spikes : List (List ℚ)} {arts1 a5 : List ℤ}
    (h : detectAndMerge conc sign times spikes arts1 = .ok a5) :
    ∃ md mh a2 a3 a4,
      mark_by_diff times = some md ∧
      applyMask arts1 md.1 md.2 = some a2 ∧
      mark_by_height spikes sign = .ok mh ∧
      applyMask a2 mh.1 mh.2 = some a3 ∧
      mergeConc conc times a3 = some a4 ∧
      applyMask a4 (mark_double_detection times spikes sign).1
        (mark_double_detection times spikes sign).2 = some a5 := by
  unfold detectAndMerge at h
  split at h
  · simp at h
  rename_i md hd
  split at h
  · simp at h
  rename_i a2 ha2
  split at h
  · simp at h
  rename_i mh hmh
  split at h
  · simp at h
  rename_i a3 ha3
  split at h
  · simp at h
  rename_i a4 ha4
  split at h
  · simp at h
  rename_i a5x ha5
  injection h with h
  subst h
  exact ⟨md, mh, a2, a3, a4, hd, ha2, hmh, ha3, ha4, ha5⟩

lemma detectAndMerge_ok_length {conc : Option (List ℚ × ℚ)} {sign : String}
    {times : List ℚ} {spikes : List (List ℚ)} {arts1 a5 : List ℤ}
    (h : detectAndMerge conc sign times spikes arts1 = .ok a5) :
    a5.length = arts1.length := by
  obtain ⟨md, mh, a2, a3, a4, hd, ha2, hmh, ha3, ha4, ha5⟩ :=
    detectAndMerge_ok h
  have l2 := (applyMask_ok ha2).2.1
  have l3 := (applyMask_ok ha3).2.1
  have l5 := (applyMask_ok ha5).2.1
  have l4 := (mergeConc_ok ha4).1
  omega

lemma processSign_processed_inv {conc : Option (List ℚ × ℚ)} {sign : String}
    {sd sd' : SignData} (h : processSign conc sign sd = .processed sd') :
    ∃ times spikes a5,
      sd.times = some times ∧ sd.spikes = some spikes ∧
      times.length ≠ 0 ∧ times.length = spikes.length ∧
      detectAndMerge conc sign times spikes
        ((sd.artifacts.getD (List.replicate times.length (0 : ℤ))).map
          (fun _ => (0 : ℤ))) = .ok a5 ∧
      sd' = { sd with artifacts := some a5 } := by
  unfold processSign at h
  split at h
  · simp at h
  rename_i times ht
  split at h
  · simp at h
  rename_i h0
  split at h
  · simp at h
  rename_i spikes hs
  split at h
  · rename_i hl
    split at h
    · simp at h
    rename_i a5 hdm
    injection h with h
    exact ⟨times, spikes, a5, ht, hs, h0, hl, hdm, h.symm⟩
  · simp at h

lemma processSign_skipped_of_empty {conc : Option (List ℚ × ℚ)}
    {sign : String} {sd : SignData}
    (h : sd.times = none ∨ sd.times = some ([] : List ℚ)) :
    processSign conc sign sd = .skipped := by
  rcases h with h | h <;> simp [processSign, h]

lemma processSign_assert_failed {conc : Option (List ℚ × ℚ)} {sign : String}
    {sd : SignData} {times : List ℚ} {spikes : List (List ℚ)}
    (ht : sd.times = some times) (hs : sd.spikes = some spikes)
    (hne : times.length ≠ 0) (hmm : times.length ≠ spikes.length) :
    processSign conc sign sd = .failed "AssertionError" := by
  unfold processSign
  simp only [ht, hs]
  rw [if_neg hne, if_neg hmm]

lemma processSign_idem {conc : Option (List ℚ × ℚ)} {sign : String}
    {sd sd' : SignData} (h : processSign conc sign sd = .processed sd') :
    processSign conc sign sd' = .processed sd' := by
  obtain ⟨times, spikes, a5, ht, hs, h0, hl, hdm, rfl⟩ :=
    processSign_processed_inv h
  have hlen : a5.length = (sd.artifacts.getD
      (List.replicate times.length (0 : ℤ))).length := by
    have h2 := detectAndMerge_ok_length hdm
    simpa using h2
  have hmapeq : a5.map (fun _ => (0 : ℤ)) =
      (sd.artifacts.getD (List.replicate times.length (0 : ℤ))).map
        (fun _ => (0 : ℤ)) := by
    rw [List.map_const', List.map_const', hlen]
  have ht' : ({ sd with artifacts := some a5 } : SignData).times
      = some times := ht
  have hs' : ({ sd with artifacts := some a5 } : SignData).spikes
      = some spikes := hs
  unfold processSign
  split
  · rename_i hnone
    rw [ht'] at hnone
    simp at hnone
  rename_i times' htimes'
  rw [ht'] at htimes'
  injection htimes' with htimes'
  subst htimes'
  split
  · rename_i h0'
    exact absurd h0' h0
  rename_i h0'
  split
  · rename_i hsnone
    rw [hs'] at hsnone
    simp at hsnone
  rename_i spikes' hspikes'
  rw [hs'] at hspikes'
  injection hspikes' with hspikes'
  subst hspikes'
  split
  · rename_i hl'
    split
    · rename_i m hdm'
      rw [show ({ sd with artifacts := some a5 } : SignData).artifacts
          = some a5 from rfl, Option.getD_some, hmapeq, hdm] at hdm'
      simp at hdm'
    · rename_i a5' hdm'
      rw [show ({ sd with artifacts := some a5 } : SignData).artifacts
          = some a5 from rfl, Option.getD_some, hmapeq, hdm] at hdm'
      injection hdm' with hdm'
      subst hdm'
      rfl
  · rename_i hl'
    exact absurd hl hl'

/-! ### Claim theorems: amplitude detector and detector return shapes -/

lemma mark_by_height_pos (spikes : List (List ℚ)) :
    mark_by_height spikes "pos" =
      .ok (spikes.map (fun r => decide (listMax r ≥ height_max_height)),
        height_art_id) := rfl

lemma mark_by_height_neg (spikes : List (List ℚ)) :
    mark_by_height spikes "neg" =
      .ok (spikes.map (fun r => decide (listMin r ≤ -height_max_height)),
        height_art_id) := rfl

/-- C5: `mark_by_height` flags a positive-polarity spike iff its row
maximum is ≥ the threshold (1000), a negative-polarity spike iff its row
minimum is ≤ −threshold, raises `ValueError` for any other sign, and
returns fixed code 2. -/
theorem mark_by_height_spec
    (spikes : List (List ℚ)) (sign : String) (j : ℕ) (mp mn : List Bool × ℕ)
    (hj : j < spikes.length)
    (hp : mark_by_height spikes "pos" = .ok mp)
    (hn : mark_by_height spikes "neg" = .ok mn)
    (hs : sign ≠ "pos" ∧ sign ≠ "neg") :
    mp.2 = height_art_id ∧
    (mp.1.getD j false = true ↔
      height_max_height ≤ listMax (spikes.getD j [])) ∧
    mn.2 = height_art_id ∧
    (mn.1.getD j false = true ↔
      listMin (spikes.getD j []) ≤ -height_max_height) ∧
    mark_by_height spikes sign = .error ("Unknown sign: " ++ sign) := by
  rw [mark_by_height_pos] at hp
  rw [mark_by_height_neg] at hn
  injection hp with hp
  injection hn with hn
  subst hp
  subst hn
  refine ⟨rfl, ?_, rfl, ?_, ?_⟩
  · rw [getD_map_of_lt _ _ _ [] j hj]
    simp [ge_iff_le]
  · rw [getD_map_of_lt _ _ _ [] j hj]
    simp
  · simp [mark_by_height, hs.1, hs.2]

/-- C5 witness: rows `[1000]` and `[0]`, unknown sign `xyz`. -/
theorem mark_by_height_spec_witness :
    ((0 : ℕ) < ([[(1000 : ℚ)], [0]] : List (List ℚ)).length ∧
      mark_by_height [[(1000 : ℚ)], [0]] "pos" = .ok ([true, false], 2) ∧
      mark_by_height [[(1000 : ℚ)], [0]] "neg" = .ok ([false, false], 2) ∧
      ("xyz" ≠ "pos" ∧ "xyz" ≠ "neg")) ∧
    ((([true, false], 2) : List Bool × ℕ).2 = height_art_id ∧
      ((([true, false], 2) : List Bool × ℕ).1.getD 0 false = true ↔
        height_max_height ≤
          listMax (([[(1000 : ℚ)], [0]] : List (List ℚ)).getD 0 [])) ∧
      (([false, false], 2) : List Bool × ℕ).2 = height_art_id ∧
      ((([false, false], 2) : List Bool × ℕ).1.getD 0 false = true ↔
        listMin (([[(1000 : ℚ)], [0]] : List (List ℚ)).getD 0 []) ≤
          -height_max_height) ∧
      mark_by_height [[(1000 : ℚ)], [0]] "xyz" =
        .error ("Unknown sign: " ++ "xyz")) :=
  ⟨⟨by decide, by with_unfolding_all rfl, by with_unfolding_all rfl,
      by decide, by decide⟩,
    mark_by_height_spec _ _ _ _ _ (by decide) (by with_unfolding_all rfl)
      (by with_unfolding_all rfl) ⟨by decide, by decide⟩⟩

/-- C10: each detector, whenever it returns, returns a boolean mask whose
length equals the number of input spikes together with its fixed code
(`mark_by_diff` → 1, `mark_by_height` → 2, `mark_by_bincount` → 4,
`mark_double_detection` → 8).  The embedding is purely functional, so the
input `times`/`spikes` are unmodified by construction. -/
theorem detector_mask_lengths_and_codes
    (times edges : List ℚ) (bl : ℚ) (spikes : List (List ℚ)) (sign : String)
    (md mh : List Bool × ℕ)
    (hd : mark_by_diff times = some md)
    (hh : mark_by_height spikes sign = .ok mh) :
    md.1.length = times.length ∧ md.2 = diff_art_id ∧
    mh.1.length = spikes.length ∧ mh.2 = height_art_id ∧
    (mark_by_bincount times edges bl).1.length = times.length ∧
    (mark_by_bincount times edges bl).2 = bincount_art_id ∧
    (mark_double_detection times spikes sign).1.length = times.length ∧
    (mark_double_detection times spikes sign).2 = double_art_id := by
  obtain ⟨d1, d2⟩ := mark_by_diff_some hd
  obtain ⟨h1, h2⟩ := mark_by_height_ok hh
  exact ⟨d1, d2, h1, h2, by simp [mark_by_bincount], rfl,
    double_mask_length times spikes sign, rfl⟩

/-- C10 witness. -/
theorem detector_mask_lengths_and_codes_witness :
    (mark_by_diff [0, 10] = some ([false, false], 1) ∧
      mark_by_height [[(0 : ℚ)], [0]] "pos" = .ok ([false, false], 2)) ∧
    ((([false, false], 1) : List Bool × ℕ).1.length =
        ([0, 10] : List ℚ).length ∧
      (([false, false], 1) : List Bool × ℕ).2 = diff_art_id ∧
      (([false, false], 2) : List Bool × ℕ).1.length =
        ([[(0 : ℚ)], [0]] : List (List ℚ)).length ∧
      (([false, false], 2) : List Bool × ℕ).2 = height_art_id ∧
      (mark_by_bincount [0, 10] [] 500).1.length =
        ([0, 10] : List ℚ).length ∧
      (mark_by_bincount [0, 10] [] 500).2 = bincount_art_id ∧
      (mark_double_detection [0, 10] [[(0 : ℚ)], [0]] "pos").1.length =
        ([0, 10] : List ℚ).length ∧
      (mark_double_detection [0, 10] [[(0 : ℚ)], [0]] "pos").2 =
        double_art_id) :=
  ⟨⟨by with_unfolding_all rfl, by with_unfolding_all rfl⟩,
    detector_mask_lengths_and_codes [0, 10] [] 500 [[(0 : ℚ)], [0]] "pos"
      ([false, false], 1) ([false, false], 2)
      (by with_unfolding_all rfl) (by with_unfolding_all rfl)⟩

/-! ### Claim theorems: pipeline -/

/-- C1: merge by assignment, not bitwise combination.  For a fully
processed polarity, every spike's final code equals the code of the last
detector (in the fixed order diff → height → concurrent → double) whose
mask flagged it, and 0 if none flagged it.  In particular a spike flagged
by rate saturation (1) and amplitude (2) but by no later detector ends
with code 2. -/
theorem pipeline_overwrite_semantics
    (conc : Option (List ℚ × ℚ)) (sign : String) (sd sd' : SignData)
    (times : List ℚ) (spikes : List (List ℚ)) (md mh : List Bool × ℕ)
    (j : ℕ)
    (h : processSign conc sign sd = .processed sd')
    (ht : sd.times = some times) (hs : sd.spikes = some spikes)
    (hd : mark_by_diff times = some md)
    (hh : mark_by_height spikes sign = .ok mh)
    (hj : j < times.length) :
    ∃ final, sd'.artifacts = some final ∧
      final.getD j 0 =
        (if (mark_double_detection times spikes sign).1.getD j false
            then (double_art_id : ℤ)
          else if (concMask conc times).getD j false
            then (bincount_art_id : ℤ)
          else if mh.1.getD j false then (height_art_id : ℤ)
          else if md.1.getD j false then (diff_art_id : ℤ)
          else 0) := by
  obtain ⟨times2, spikes2, a5, ht2, hs2, h0, hl, hdm, rfl⟩ :=
    processSign_processed_inv h
  rw [ht] at ht2
  injection ht2 with ht2
  subst ht2
  rw [hs] at hs2
  injection hs2 with hs2
  subst hs2
  obtain ⟨md2, mh2, a2, a3, a4, hd2, ha2, hmh2, ha3, ha4, ha5⟩ :=
    detectAndMerge_ok hdm
  rw [hd] at hd2
  injection hd2 with hd2
  subst hd2
  rw [hh] at hmh2
  injection hmh2 with hmh2
  subst hmh2
  obtain ⟨hmdlen, hmdcode⟩ := mark_by_diff_some hd
  obtain ⟨hmhlen, hmhcode⟩ := mark_by_height_ok hh
  obtain ⟨l1, l2, f2⟩ := applyMask_ok ha2
  obtain ⟨l3, l4, f3⟩ := applyMask_ok ha3
  obtain ⟨l5, f4⟩ := mergeConc_ok ha4
  obtain ⟨l6, l7, f5⟩ := applyMask_ok ha5
  have harts1 : ∀ k,
      ((sd.artifacts.getD (List.replicate times.length (0 : ℤ))).map
        (fun _ => (0 : ℤ))).getD k 0 = 0 := by
    intro k
    rcases Nat.lt_or_ge k
        ((sd.artifacts.getD (List.replicate times.length (0 : ℤ))).map
          (fun _ => (0 : ℤ))).length with hk | hk
    · rw [List.getD_eq_getElem _ _ hk]
      simp
    · rw [List.getD_eq_default _ _ hk]
  have harts1len :
      ((sd.artifacts.getD (List.replicate times.length (0 : ℤ))).map
        (fun _ => (0 : ℤ))).length = times.length := by
    rw [l1, hmdlen]
  have hdbl := double_mask_length times spikes sign
  refine ⟨a5, rfl, ?_⟩
  have e5 := f5 j (by omega)
  have e4 := f4 j (by omega)
  have e3 := f3 j (by omega)
  have e2 := f2 j (by omega)
  rw [show (mark_double_detection times spikes sign).2 = double_art_id
    from rfl] at e5
  rw [hmhcode] at e3
  rw [hmdcode] at e2
  rw [e5, e4, e3, e2, harts1 j]

/-- C1 witness: a two-spike recording processed end to end. -/
theorem pipeline_overwrite_semantics_witness :
    (processSign none "pos" ⟨some [0, 10], some [[0], [0]], none⟩ =
        .processed ⟨some [0, 10], some [[0], [0]], some [0, 0]⟩ ∧
      (SignData.mk (some [0, 10]) (some [[0], [0]]) none).times =
        some [0, 10] ∧
      (SignData.mk (some [0, 10]) (some [[0], [0]]) none).spikes =
        some [[0], [0]] ∧
      mark_by_diff [0, 10] = some ([false, false], 1) ∧
      mark_by_height [[(0 : ℚ)], [0]] "pos" = .ok ([false, false], 2) ∧
      (0 : ℕ) < ([0, 10] : List ℚ).length) ∧
    (∃ final,
      (SignData.mk (some [0, 10]) (some [[0], [0]])
        (some [0, 0])).artifacts = some final ∧
      final.getD 0 0 =
        (if (mark_double_detection [0, 10] [[(0 : ℚ)], [0]]
              "pos").1.getD 0 false
            then (double_art_id : ℤ)
          else if (concMask none [0, 10]).getD 0 false
            then (bincount_art_id : ℤ)
          else if (([false, false], 2) : List Bool × ℕ).1.getD 0 false
            then (height_art_id : ℤ)
          else if (([false, false], 1) : List Bool × ℕ).1.getD 0 false
            then (diff_art_id : ℤ)
          else 0)) :=
  ⟨⟨by with_unfolding_all rfl, rfl, rfl, by with_unfolding_all rfl,
      by with_unfolding_all rfl, by decide⟩,
    pipeline_overwrite_semantics none "pos"
      ⟨some [0, 10], some [[0], [0]], none⟩
      ⟨some [0, 10], some [[0], [0]], some [0, 0]⟩ [0, 10] [[(0 : ℚ)], [0]]
      ([false, false], 1) ([false, false], 2) 0
      (by with_unfolding_all rfl) rfl rfl (by with_unfolding_all rfl)
      (by with_unfolding_all rfl) (by decide)⟩

/-- C8: with the reset-before-analysis policy (`RESET = True` in the
source), rerunning `main` on its own output reproduces it exactly: the
second run's persisted artifact arrays equal the first's. -/
theorem pipeline_rerun_identical (conc : Option (List ℚ × ℚ))
    (f f' : H5File) (h : mainRun conc f = .ok f') :
    mainRun conc f' = .ok f' := by
  unfold mainRun at h ⊢
  cases h1 : processSign conc "pos" f.pos with
  | failed m => simp [h1] at h
  | skipped =>
    cases h2 : processSign conc "neg" f.neg with
    | failed m => simp [h1, h2] at h
    | skipped =>
      simp only [h1, h2] at h
      injection h with h
      subst h
      simp [h1, h2]
    | processed nd =>
      simp only [h1, h2] at h
      injection h with h
      subst h
      simp [h1, processSign_idem h2]
  | processed pd =>
    cases h2 : processSign conc "neg" f.neg with
    | failed m => simp [h1, h2] at h
    | skipped =>
      simp only [h1, h2] at h
      injection h with h
      subst h
      simp [processSign_idem h1, h2]
    | processed nd =>
      simp only [h1, h2] at h
      injection h with h
      subst h
      simp [processSign_idem h1, processSign_idem h2]

/-- C8 witness: a two-spike recording, run twice. -/
theorem pipeline_rerun_identical_witness :
    mainRun none ⟨⟨some [0, 10], some [[0], [0]], none⟩,
        ⟨none, none, none⟩⟩ =
      .ok ⟨⟨some [0, 10], some [[0], [0]], some [0, 0]⟩,
        ⟨none, none, none⟩⟩ ∧
    mainRun none ⟨⟨some [0, 10], some [[0], [0]], some [0, 0]⟩,
        ⟨none, none, none⟩⟩ =
      .ok ⟨⟨some [0, 10], some [[0], [0]], some [0, 0]⟩,
        ⟨none, none, none⟩⟩ :=
  ⟨by with_unfolding_all rfl,
    pipeline_rerun_identical none
      ⟨⟨some [0, 10], some [[0], [0]], none⟩, ⟨none, none, none⟩⟩
      ⟨⟨some [0, 10], some [[0], [0]], some [0, 0]⟩, ⟨none, none, none⟩⟩
      (by with_unfolding_all rfl)⟩

/-- C3 counterexample: recording whose `pos` polarity has 5 timestamps but
4 waveform rows (and a well-formed `neg` polarity), followed by a
well-formed second recording.  The `assert` aborts the whole batch: the
same recording's `neg` polarity and the subsequent recording are NOT
processed — refuting "fatal only for that polarity". -/
theorem assert_mismatch_cex :
    mainRun none ⟨⟨some [0, 10, 20, 30, 40], some [[0], [0], [0], [0]],
        none⟩, ⟨some [0], some [[0]], none⟩⟩ =
      .error "AssertionError" ∧
    runBatch none
      [⟨⟨some [0, 10, 20, 30, 40], some [[0], [0], [0], [0]], none⟩,
          ⟨some [0], some [[0]], none⟩⟩,
        ⟨⟨some [0, 10], some [[0], [0]], none⟩, ⟨none, none, none⟩⟩] =
      .error "AssertionError" :=
  ⟨by with_unfolding_all rfl, by with_unfolding_all rfl⟩

/-- C3 (amended): a spike-count mismatch between times and waveforms makes
the `assert` in `main` raise, and the uncaught `AssertionError` aborts the
polarity loop and the batch loop: the same recording's other polarity and
all subsequent recordings are not processed. -/
theorem assert_mismatch_aborts_batch
    (conc : Option (List ℚ × ℚ)) (sign : String) (sd nd : SignData)
    (rest : List H5File) (times : List ℚ) (spikes : List (List ℚ))
    (ht : sd.times = some times) (hs : sd.spikes = some spikes)
    (hne : times.length ≠ 0) (hmm : times.length ≠ spikes.length) :
    processSign conc sign sd = .failed "AssertionError" ∧
    mainRun conc ⟨sd, nd⟩ = .error "AssertionError" ∧
    runBatch conc (⟨sd, nd⟩ :: rest) = .error "AssertionError" := by
  have hp : processSign conc "pos" sd = .failed "AssertionError" :=
    processSign_assert_failed ht hs hne hmm
  have hm : mainRun conc ⟨sd, nd⟩ = .error "AssertionError" := by
    unfold mainRun
    simp [hp]
  refine ⟨processSign_assert_failed ht hs hne hmm, hm, ?_⟩
  unfold runBatch
  simp [hm]

/-- C3 (amended) witness. -/
theorem assert_mismatch_aborts_batch_witness :
    ((SignData.mk (some [0, 10, 20, 30, 40]) (some [[0], [0], [0], [0]])
        none).times = some [0, 10, 20, 30, 40] ∧
      (SignData.mk (some [0, 10, 20, 30, 40]) (some [[0], [0], [0], [0]])
        none).spikes = some [[0], [0], [0], [0]] ∧
      ([0, 10, 20, 30, 40] : List ℚ).length ≠ 0 ∧
      ([0, 10, 20, 30, 40] : List ℚ).length ≠
        ([[0], [0], [0], [0]] : List (List ℚ)).length) ∧
    (processSign none "pos"
        ⟨some [0, 10, 20, 30, 40], some [[0], [0], [0], [0]], none⟩ =
      .failed "AssertionError" ∧
    mainRun none ⟨⟨some [0, 10, 20, 30, 40], some [[0], [0], [0], [0]],
        none⟩, ⟨some [0], some [[0]], none⟩⟩ = .error "AssertionError" ∧
    runBatch none [⟨⟨some [0, 10, 20, 30, 40],
        some [[0], [0], [0], [0]], none⟩,
        ⟨some [0], some [[0]], none⟩⟩] = .error "AssertionError") :=
  ⟨⟨rfl, rfl, by decide, by decide⟩,
    assert_mismatch_aborts_batch none "pos" _ _ [] [0, 10, 20, 30, 40]
      [[0], [0], [0], [0]] rfl rfl (by decide) (by decide)⟩

/-- C4 counterexample: a recording where both polarities lack a times
node.  Both loop iterations open a storage handle and `continue` past
`h5fid.close()`: 2 handles opened, 0 closed — refuting "released on every
exit path". -/
theorem handle_leak_on_skip_cex :
    countE (mainTrace none ⟨⟨none, none, none⟩, ⟨none, none, none⟩⟩)
      HEvent.opened = 2 ∧
    countE (mainTrace none ⟨⟨none, none, none⟩, ⟨none, none, none⟩⟩)
      HEvent.closed = 0 :=
  ⟨rfl, rfl⟩

/-- C4 (amended): the per-polarity storage handle is closed only on the
fully-processed exit path: opens balance closes exactly when both
polarities reach full processing; early-skip and exception paths leave the
handle open. -/
theorem handle_balance_iff_fully_processed (conc : Option (List ℚ × ℚ))
    (f : H5File) :
    countE (mainTrace conc f) HEvent.opened =
      countE (mainTrace conc f) HEvent.closed ↔
    ((∃ pd, processSign conc "pos" f.pos = .processed pd) ∧
      (∃ nd, processSign conc "neg" f.neg = .processed nd)) := by
  cases h1 : processSign conc "pos" f.pos with
  | skipped =>
    cases h2 : processSign conc "neg" f.neg with
    | skipped => simp [mainTrace, h1, h2, signTrace, countE]
    | processed nd => simp [mainTrace, h1, h2, signTrace, countE]
    | failed m => simp [mainTrace, h1, h2, signTrace, countE]
  | processed pd =>
    cases h2 : processSign conc "neg" f.neg with
    | skipped => simp [mainTrace, h1, h2, signTrace, countE]
    | processed nd => simp [mainTrace, h1, h2, signTrace, countE]
    | failed m => simp [mainTrace, h1, h2, signTrace, countE]
  | failed m => simp [mainTrace, h1, signTrace, countE]

/-- C7: a polarity whose times node is absent or empty is skipped — no
exception, no artifact record created or modified; after a successful
`main` run its stored record is unchanged. -/
theorem empty_times_skipped_no_mutation
    (conc : Option (List ℚ × ℚ)) (sign : String) (sd nd : SignData)
    (f' : H5File)
    (h : sd.times = none ∨ sd.times = some ([] : List ℚ))
    (hrun : mainRun conc ⟨sd, nd⟩ = .ok f') :
    processSign conc sign sd = .skipped ∧ f'.pos = sd := by
  refine ⟨processSign_skipped_of_empty h, ?_⟩
  unfold mainRun at hrun
  simp only [@processSign_skipped_of_empty conc "pos" sd h] at hrun
  cases h2 : processSign conc "neg" nd with
  | failed m => simp [h2] at hrun
  | skipped =>
    simp only [h2] at hrun
    injection hrun with hrun
    rw [← hrun]
  | processed nd2 =>
    simp only [h2] at hrun
    injection hrun with hrun
    rw [← hrun]

/-- C7 witness: an empty `pos` times array. -/
theorem empty_times_skipped_no_mutation_witness :
    (((SignData.mk (some ([] : List ℚ)) none none).times = none ∨
      (SignData.mk (some ([] : List ℚ)) none none).times =
        some ([] : List ℚ)) ∧
      mainRun none ⟨⟨some ([] : List ℚ), none, none⟩,
        ⟨none, none, none⟩⟩ =
        .ok ⟨⟨some ([] : List ℚ), none, none⟩, ⟨none, none, none⟩⟩) ∧
    (processSign none "pos" ⟨some ([] : List ℚ), none, none⟩ =
        .skipped ∧
      (H5File.mk ⟨some ([] : List ℚ), none, none⟩
        ⟨none, none, none⟩).pos = ⟨some ([] : List ℚ), none, none⟩) :=
  ⟨⟨Or.inr rfl, rfl⟩,
    empty_times_skipped_no_mutation none "pos"
      ⟨some ([] : List ℚ), none, none⟩ ⟨none, none, none⟩
      ⟨⟨some ([] : List ℚ), none, none⟩, ⟨none, none, none⟩⟩
      (Or.inr rfl) rfl⟩

end MaskArtifacts
